import Mathlib

/-!
Shallow embedding of the realtime-context-streaming server core
(`src/server/ws_manager.py`, `src/server/ingestion_buffer.py`,
`src/server/models.py`) and proofs about the claims of its specification.

Conventions of the embedding:
* Python strings are modelled as `List Char`; byte strings as `List Nat`.
* Python floats are modelled as `ℚ`; float literals such as `0.3`, `0.015`,
  `0.2` are written as the exact rationals `3/10`, `3/200`, `1/5`.  The two
  places where Python float rounding could diverge from exact rational
  arithmetic (`len(prev_words) * 0.8` and `int(MAX_BUFFER_SIZE * 0.38)`)
  round to the exact rational value for every feasible operand, so the
  rational model is faithful there (`0.8 * n` and `0.38 * 128000` round to
  the exact product for all list lengths below 2^50).
* The model covers ASCII text, which is the alphabet produced by the
  English-only transcription engine configured in `models.py`.
-/

namespace StreamCore

/-- Python `\s` whitespace class (ASCII part), as used by `str.split()` and
`str.strip()`. -/
def isSpaceChar (c : Char) : Bool :=
  c = ' ' || c = '\t' || c = '\n' || c = '\x0d' || c = '\x0b' || c = '\x0c'

/-- Python `\w` word-character class (ASCII part): letters, digits, underscore. -/
def isWordChar (c : Char) : Bool :=
  c.isAlpha || c.isDigit || c = '_'

/-- Helper for `pySplit`: accumulates the current word (reversed). -/
def pySplitAux : List Char → List Char → List (List Char)
  | [], cur => if cur = [] then [] else [cur.reverse]
  | c :: cs, cur =>
    if isSpaceChar c then
      if cur = [] then pySplitAux cs [] else cur.reverse :: pySplitAux cs []
    else
      pySplitAux cs (c :: cur)

/-- Python `str.split()` (no argument): split on runs of whitespace,
dropping empty pieces. -/
def pySplit (s : List Char) : List (List Char) :=
  pySplitAux s []

/-- Python `' '.join(words)`. -/
def joinSpace (ws : List (List Char)) : List Char :=
  (List.intersperse [' '] ws).flatten

/-- Python `'\n'.join(parts)`. -/
def joinNewline (ws : List (List Char)) : List Char :=
  (List.intersperse ['\n'] ws).flatten

/-- Python `str.strip()`: drop leading and trailing whitespace. -/
def pyStrip (s : List Char) : List Char :=
  (((s.dropWhile isSpaceChar).reverse.dropWhile isSpaceChar).reverse)

/-- Python `needle in hay` on strings: contiguous substring test. -/
def strContains (hay needle : List Char) : Bool :=
  hay.tails.any fun t => needle.isPrefixOf t

/-- Python `lst[-n:]` on lists/byte buffers: the trailing `n` elements
(the whole list when `n ≥ length`). -/
def takeTail (l : List α) (n : Nat) : List α :=
  l.drop (l.length - n)

/-- The `number_map` dict of `normalize_text_for_comparison`
(`ws_manager.py`): single/double-digit numerals 0–20 to words. -/
def numberMap : List Char → Option (List Char)
  | ['0'] => some "zero".data
  | ['1'] => some "one".data
  | ['2'] => some "two".data
  | ['3'] => some "three".data
  | ['4'] => some "four".data
  | ['5'] => some "five".data
  | ['6'] => some "six".data
  | ['7'] => some "seven".data
  | ['8'] => some "eight".data
  | ['9'] => some "nine".data
  | ['1', '0'] => some "ten".data
  | ['1', '1'] => some "eleven".data
  | ['1', '2'] => some "twelve".data
  | ['1', '3'] => some "thirteen".data
  | ['1', '4'] => some "fourteen".data
  | ['1', '5'] => some "fifteen".data
  | ['1', '6'] => some "sixteen".data
  | ['1', '7'] => some "seventeen".data
  | ['1', '8'] => some "eighteen".data
  | ['1', '9'] => some "nineteen".data
  | ['2', '0'] => some "twenty".data
  | _ => none

/-- One regex match of `re.sub(r'\b(\d{1,2})\b', replace_number, text)`:
a maximal digit run `run` with non-word neighbours on both sides matches
when it has length 1 or 2; `replace_number` maps it through `numberMap`
and leaves it unchanged when the lookup fails (numbers 21–99). -/
def replaceRun (prevIsWord : Bool) (run : List Char) (nextIsWord : Bool) : List Char :=
  if !prevIsWord && !nextIsWord && run.length ≤ 2 then
    match numberMap run with
    | some w => w
    | none => run
  else run

/-- Scanner for the `\b(\d{1,2})\b` substitution.  `prevIsWord` records
whether the character before the pending digit run is a word character;
`run` is the pending maximal digit run, reversed. -/
def replaceNumbersAux : Bool → List Char → List Char → List Char
  | prevIsWord, run, [] =>
    if run = [] then [] else replaceRun prevIsWord run.reverse false
  | prevIsWord, run, c :: cs =>
    if c.isDigit then
      replaceNumbersAux prevIsWord (c :: run) cs
    else if run = [] then
      c :: replaceNumbersAux (isWordChar c) [] cs
    else
      replaceRun prevIsWord run.reverse (isWordChar c) ++
        c :: replaceNumbersAux (isWordChar c) [] cs

/-- Source `re.sub(r'\b(\d{1,2})\b', replace_number, text)` from
`normalize_text_for_comparison` (`ws_manager.py`). -/
def replaceNumbers (s : List Char) : List Char :=
  replaceNumbersAux false [] s

/-- Source `normalize_text_for_comparison` (`ws_manager.py` lines 38–70):
numerals to words, lowercase, strip punctuation (`[^\w\s]`), collapse
whitespace. -/
def normalize_text_for_comparison (text : List Char) : List Char :=
  let step1 := replaceNumbers text
  let step2 := (step1.map Char.toLower).filter fun c => isWordChar c || isSpaceChar c
  joinSpace (pySplit step2)

/-- The overlap-search loop of `extract_new_text_fallback`
(`ws_manager.py` lines 131–134): for `i` in `1..max_check`, the last `i`
with `prev_words[-i:] == new_words[:i]` sets
`(best_overlap_end, best_overlap_len) = (len(new_words) - i, i)`. -/
def bestOverlap (prev_words new_words : List (List Char)) (max_check : Nat) :
    Nat × Nat :=
  (List.range' 1 max_check).foldl
    (fun acc i =>
      if takeTail prev_words i = new_words.take i then
        (new_words.length - i, i)
      else acc)
    (0, 0)

/-- The secondary 5→3 boundary-alignment check of
`extract_new_text_fallback` (`ws_manager.py` lines 142–145): the first
`overlap_size` in `[5, 4, 3]` with `prev_words[-overlap_size:] ==
new_words[:overlap_size]`. -/
def boundaryAlign (prev_words new_words : List (List Char)) : Option Nat :=
  [5, 4, 3].find? fun os => takeTail prev_words os = new_words.take os

/-- Source `extract_new_text_fallback` (`ws_manager.py` lines 101–148): fallback
word-based deduplication between the previous full text and the new full
text.  The Python float test `len(new_words) <= len(prev_words) * 0.8` is
translated as `5 * len(new_words) ≤ 4 * len(prev_words)` (exact for all
feasible lengths). -/
def extract_new_text_fallback (prev_text new_text : List Char) : List Char :=
  if prev_text = [] ∨ new_text = [] then new_text
  else
    let prev_normalized := normalize_text_for_comparison prev_text
    let new_normalized := normalize_text_for_comparison new_text
    let prev_words := pySplit prev_normalized
    let new_words := pySplit new_normalized
    let original_new_words := pySplit new_text
    if 5 * new_words.length ≤ 4 * prev_words.length ∧
        strContains (joinSpace prev_words) (joinSpace new_words) then
      []
    else
      let best := bestOverlap prev_words new_words
        (min 20 (min prev_words.length new_words.length))
      if best.2 ≥ 3 then
        joinSpace (original_new_words.drop best.1)
      else if prev_words.length ≥ 5 ∧ new_words.length ≥ 5 then
        match boundaryAlign prev_words new_words with
        | some os => joinSpace (original_new_words.drop os)
        | none => new_text
      else new_text

/-! ## Timestamp-based reconciliation (`extract_new_text_with_timestamps`) -/

/-- A Whisper transcript segment (`TranscriptSegment` of the spec).  The
Python attribute `end` is rendered `stop` (`end` is a Lean keyword). -/
structure Segment where
  start : ℚ
  stop : ℚ
  text : List Char
  deriving DecidableEq, Repr

/-- Loop body of `extract_new_text_with_timestamps` (`ws_manager.py`
lines 90–95): a segment with `start >= prev_end_time - 0.3` contributes
its stripped text and raises the running end time. -/
def reconcileStep (prev_end_time : ℚ) (acc : List (List Char) × ℚ)
    (s : Segment) : List (List Char) × ℚ :=
  if s.start ≥ prev_end_time - 3/10 then
    (acc.1 ++ [pyStrip s.text], max acc.2 s.stop)
  else acc

/-- Source `extract_new_text_with_timestamps` (`ws_manager.py` lines 73–98). -/
def extract_new_text_with_timestamps (prev_end_time : ℚ)
    (segments : List Segment) : List Char × ℚ :=
  let r := segments.foldl (reconcileStep prev_end_time) ([], prev_end_time)
  (joinSpace r.1, r.2)

/-! ## Per-connection streaming state machine (`handle_audio_stream`) -/

/-- Source `SAMPLE_RATE * BYTES_PER_SAMPLE * BUFFER_DURATION_SEC`
= `int(16000 * 2 * 4.0)` (`ws_manager.py` line 13). -/
def MAX_BUFFER_SIZE : Nat := 16000 * 2 * 4

/-- Source `int(16000 * 2 * 2.0)` (`ws_manager.py` line 16). -/
def MIN_BUFFER_SIZE : Nat := 16000 * 2 * 2

/-- Source `SILENCE_THRESHOLD = 0.015` (`ws_manager.py` line 19). -/
def SILENCE_THRESHOLD : ℚ := 3/200

/-- Source `int(SILENCE_WINDOW_SEC / SLIDE_DURATION_SEC) = int(2.5 / 2.5)`
(`ws_manager.py` line 21). -/
def SILENCE_CHUNKS_BEFORE_RESET : Nat := 1

/-- Source `ENERGY_SMOOTHING_FACTOR = 0.2` (`ws_manager.py` line 24). -/
def ENERGY_SMOOTHING_FACTOR : ℚ := 1/5

/-- Source `keep_bytes = int(MAX_BUFFER_SIZE * 0.38)` (`ws_manager.py` line 271);
`128000 * float(0.38)` rounds to a double just above `48640`, so `int`
truncation gives exactly `38 * MAX_BUFFER_SIZE / 100 = 48640`. -/
def KEEP_BYTES : Nat := 38 * MAX_BUFFER_SIZE / 100

/-- Source `AudioState` (`ws_manager.py` lines 151–161), one per connection. -/
structure AudioState where
  buffer : List Nat
  smoothed_energy : ℚ
  silence_counter : Nat
  last_end_time : ℚ
  last_full_text : List Char
  is_speaking : Bool
  last_process_time : ℚ
  speech_end_time : ℚ
  deriving DecidableEq, Repr

/-- Source `AudioState.__init__`: all fields zero/empty. -/
def AudioState.init : AudioState :=
  ⟨[], 0, 0, 0, [], false, 0, 0⟩

/-- One incoming WebSocket binary frame together with its arrival wall
clock (`time.time()` at receipt) and the RMS energy `calculate_energy`
computes for it.  `calculate_energy` itself is numpy floating-point
signal arithmetic; its output is carried as data here since no claim
depends on the RMS formula. -/
structure Frame where
  data : List Nat
  time : ℚ
  energy : ℚ

/-- Result of `transcribe_audio_buffer_with_timestamps` (`models.py`
lines 30–57): `(full_text, segments, end_time)`.  The Python function
always returns a tuple (never `None`), so the handler's `if result:`
test is always true; engine failures are raised exceptions, modelled by
the `Except.error` branch of the transcription oracle. -/
structure TransResult where
  full_text : List Char
  segments : List Segment
  end_time : ℚ

/-- The transcription boundary: a call into the external engine that
either returns a `TransResult` or raises. -/
def Transcriber := List Nat → Except Unit TransResult

/-- Energy smoothing (`ws_manager.py` lines 177–180):
`smoothed = α·current + (1−α)·smoothed_prev`. -/
def smoothedOf (st : AudioState) (f : Frame) : ℚ :=
  ENERGY_SMOOTHING_FACTOR * f.energy +
    (1 - ENERGY_SMOOTHING_FACTOR) * st.smoothed_energy

/-- Frame ingestion (`ws_manager.py` lines 176–183): update the smoothed
energy and append the frame bytes to the buffer unconditionally. -/
def ingest (st : AudioState) (f : Frame) : AudioState :=
  { st with smoothed_energy := smoothedOf st f, buffer := st.buffer ++ f.data }

/-- The silence branch (`ws_manager.py` lines 186–204): mark the
speech→silence transition, bump the silence counter, and hard-reset on
long silence. -/
def silenceStep (st : AudioState) (now : ℚ) : AudioState :=
  let st1 := if st.is_speaking then
    { st with speech_end_time := now, is_speaking := false } else st
  let st2 := { st1 with silence_counter := st1.silence_counter + 1 }
  if st2.silence_counter > SILENCE_CHUNKS_BEFORE_RESET * 2 then
    { st2 with
      buffer := [], silence_counter := 0, last_end_time := 0,
      last_full_text := [], speech_end_time := 0 }
  else st2

/-- Voice bookkeeping (`ws_manager.py` lines 207–209): reset the silence
counter and the speech-end timer, mark speaking. -/
def speechMark (st : AudioState) : AudioState :=
  { st with silence_counter := 0, is_speaking := true, speech_end_time := 0 }

/-- The processing trigger (`ws_manager.py` lines 214–227): buffer full,
or pause (minimum audio, speech ended, ≥ 1 s since speech ended). -/
def shouldProcess (st : AudioState) (now : ℚ) : Prop :=
  st.buffer.length ≥ MAX_BUFFER_SIZE ∨
    (st.buffer.length ≥ MIN_BUFFER_SIZE ∧ st.speech_end_time > 0 ∧
      now - st.speech_end_time ≥ 1)

instance (st : AudioState) (now : ℚ) : Decidable (shouldProcess st now) := by
  unfold shouldProcess; infer_instance

/-- The emission gate (`ws_manager.py` lines 262–268): the stripped new
portion is sent iff it is nonempty. -/
def emitted (t : List Char) : Option (List Char) :=
  if pyStrip t = [] then none else some (pyStrip t)

/-- One processing round (`ws_manager.py` lines 229–272): hand the
trailing `MAX_BUFFER_SIZE` bytes to the transcription boundary;
reconcile by timestamps when segments are present (overwriting the
watermark with the engine's reported `end_time`), otherwise by the
text fallback; cache the full text; emit the stripped delta when
nonempty; retain the trailing `keep_bytes` of the buffer.  An engine
exception propagates (`Except.error`). -/
def processRound (tr : Transcriber) (st : AudioState) :
    Except Unit (AudioState × Option (List Char)) :=
  match tr (takeTail st.buffer MAX_BUFFER_SIZE) with
  | Except.error e => Except.error e
  | Except.ok r =>
    let step :=
      if r.segments = [] then
        (extract_new_text_fallback st.last_full_text r.full_text, st)
      else
        ((extract_new_text_with_timestamps st.last_end_time r.segments).1,
          { st with last_end_time := r.end_time })
    let st2 := { step.2 with last_full_text := r.full_text }
    Except.ok
      ({ st2 with buffer :=
          if KEEP_BYTES > 0 then takeTail st2.buffer KEEP_BYTES else [] },
        emitted step.1)

/-- One iteration of the `while True` receive loop of
`handle_audio_stream` (`ws_manager.py` lines 171–272) on one frame:
returns the updated state and the message sent (if any), or the raised
exception. -/
def handle_frame (tr : Transcriber) (st : AudioState) (f : Frame) :
    Except Unit (AudioState × Option (List Char)) :=
  let st1 := ingest st f
  if st1.smoothed_energy < SILENCE_THRESHOLD then
    Except.ok (silenceStep st1 f.time, none)
  else
    let st2 := speechMark st1
    if shouldProcess st2 f.time then processRound tr st2
    else Except.ok (st2, none)

/-- Observable outcome of running the receive loop on a frame sequence:
the texts sent, the number of frames whose handling completed, and
whether an exception escaped the loop into the connection-level
`except` handler (which logs and returns, ending the connection). -/
structure RunResult where
  outputs : List (List Char)
  processed : Nat
  crashed : Bool
  deriving DecidableEq, Repr

/-- The receive loop of `handle_audio_stream`: frames are handled in
order; an exception ends the loop, leaving the remaining frames
unreceived and unprocessed. -/
def run_frames (tr : Transcriber) (st : AudioState) :
    List Frame → RunResult
  | [] => ⟨[], 0, false⟩
  | f :: fs =>
    match handle_frame tr st f with
    | Except.error _ => ⟨[], 0, true⟩
    | Except.ok (st', out) =>
      let r := run_frames tr st' fs
      ⟨out.toList ++ r.outputs, r.processed + 1, r.crashed⟩

/-! ## Session aggregation buffer (`ingestion_buffer.py`) -/

/-- Source `ContextChunk` (`ingestion_buffer.py` lines 19–44). -/
structure ContextChunk where
  start_time : ℚ
  end_time : ℚ
  transcripts : List (List Char)
  frame_descriptions : List (List Char)
  session_id : List Char
  deriving DecidableEq, Repr

/-- Source `ContextChunk.get_combined_text` (`ingestion_buffer.py` lines 28–40):
frame-description section, then transcript section, the parts joined by
newlines; each section's fragments joined by a single space. -/
def ContextChunk.get_combined_text (c : ContextChunk) : List Char :=
  let parts :=
    (if c.frame_descriptions ≠ [] then
      ["Visual Context:".data, joinSpace c.frame_descriptions] else []) ++
    (if c.transcripts ≠ [] then
      ["Audio Transcript:".data, joinSpace c.transcripts] else [])
  joinNewline parts

/-- Source `ContextChunk.get_duration`. -/
def ContextChunk.get_duration (c : ContextChunk) : ℚ :=
  c.end_time - c.start_time

/-- The metadata dict built by `process_current_batch`
(`ingestion_buffer.py` lines 119–127).  The Python start/end values are
ISO-8601 renderings of the chunk's wall-clock times; the times are kept
as rationals here (the rendering is injective presentation). -/
structure ChunkMetadata where
  start_time : ℚ
  end_time : ℚ
  session_id : List Char
  content_type : List Char
  transcript_count : Nat
  frame_count : Nat
  duration_sec : ℚ
  deriving DecidableEq, Repr

/-- One `collection.add` call received by the storage collaborator:
document text, metadata, and the unique id (`f"chunk_{chunk.start_time}"`,
modelled by the chunk start time it is formatted from). -/
structure StoredDoc where
  document : List Char
  metadata : ChunkMetadata
  id_time : ℚ
  deriving DecidableEq, Repr

/-- Source `IngestionBuffer` state (`ingestion_buffer.py` lines 47–61) plus the
log of storage writes it has issued.  The instance field `self._lock` is
a non-reentrant `threading.Lock`; whether the running method already
holds it is threaded through the operations below as an explicit
`lockHeld` flag, because `_start_new_chunk` acquires the lock itself and
a nested acquire blocks forever. -/
structure IngestionBuffer where
  batch_duration_sec : ℚ
  current_chunk : Option ContextChunk
  session_id : List Char
  stored : List StoredDoc
  deriving DecidableEq, Repr

/-- Source `IngestionBuffer._start_new_chunk` (`ingestion_buffer.py` lines
77–85), with the wall clock passed explicitly.  The method body opens
`with self._lock:`; `lockHeld` says whether the caller already holds
that non-reentrant lock, in which case the acquire at line 80 blocks
forever and the call never returns (`none`). -/
def IngestionBuffer.start_new_chunk (b : IngestionBuffer) (now : ℚ)
    (lockHeld : Bool) : Option IngestionBuffer :=
  if lockHeld then none
  else
    some { b with
      current_chunk := some ⟨now, now + b.batch_duration_sec, [], [], b.session_id⟩ }

/-- Source `IngestionBuffer.add_transcript` (`ingestion_buffer.py` lines 87–93):
the `_start_new_chunk()` call sits before `with self._lock:`, so it runs
with the lock free and succeeds; `none` would mean the call never
returns. -/
def IngestionBuffer.add_transcript (b : IngestionBuffer) (now : ℚ)
    (text : List Char) : Option IngestionBuffer :=
  match (if b.current_chunk = none then b.start_new_chunk now false else some b) with
  | none => none
  | some b1 =>
    match b1.current_chunk with
    | some c =>
      some { b1 with current_chunk := some { c with transcripts := c.transcripts ++ [text] } }
    | none => some b1

/-- Source `IngestionBuffer.add_frame_description` (`ingestion_buffer.py` lines
95–101): same shape as `add_transcript`, lock free at the
`_start_new_chunk()` call. -/
def IngestionBuffer.add_frame_description (b : IngestionBuffer) (now : ℚ)
    (description : List Char) : Option IngestionBuffer :=
  match (if b.current_chunk = none then b.start_new_chunk now false else some b) with
  | none => none
  | some b1 =>
    match b1.current_chunk with
    | some c =>
      some { b1 with
        current_chunk :=
          some { c with frame_descriptions := c.frame_descriptions ++ [description] } }
    | none => some b1

/-- The metadata built for a detached chunk. -/
def mkMetadata (c : ContextChunk) : ChunkMetadata :=
  ⟨c.start_time, c.end_time, c.session_id, "mixed".data,
    c.transcripts.length, c.frame_descriptions.length, c.get_duration⟩

/-- Source `IngestionBuffer.process_current_batch` (`ingestion_buffer.py` lines
103–140), the `flush()` of the spec.  The method acquires `self._lock`
at line 105 and, still holding it, calls `self._start_new_chunk()` at
line 110, whose own `with self._lock:` re-acquires the non-reentrant
lock: when a current chunk exists the call blocks forever (`none`).
The continuation — skip empty chunks, else store the combined document
under the chunk id (a `collection.add` failure is swallowed; the model
keeps the successful-write path) — is rendered faithfully from lines
113–140 but is reachable only through the `none` branch being avoided,
which never happens with a current chunk present. -/
def IngestionBuffer.process_current_batch (b : IngestionBuffer) (now : ℚ) :
    Option IngestionBuffer :=
  match b.current_chunk with
  | none => some b
  | some chunk =>
    match b.start_new_chunk now true with
    | none => none
    | some b1 =>
      if chunk.transcripts = [] ∧ chunk.frame_descriptions = [] then some b1
      else
        some { b1 with
          stored := b1.stored ++
            [⟨chunk.get_combined_text, mkMetadata chunk, chunk.start_time⟩] }

/-! ## Concrete instances used by the verification below -/

/-- The kept-segment test of the timestamp reconciler
(`segment.start >= prev_end_time - 0.3`), as a Boolean predicate. -/
def keptSeg (prev : ℚ) (s : Segment) : Bool := s.start ≥ prev - 3/10

/-- A loud frame carrying one full buffer of audio bytes. -/
def bigVoiceFrame : Frame := ⟨List.replicate MAX_BUFFER_SIZE 0, 10, 1⟩

/-- An engine whose transcription call always raises. -/
def failingEngine : Transcriber := fun _ => Except.error ()

/-- An engine that returns an empty transcription. -/
def stubEngine : Transcriber := fun _ => Except.ok ⟨[], [], 0⟩

/-- An engine returning one segment of the fresh pass whose timestamps lie
below an older watermark (timestamps restart near zero on each chunk). -/
def backEngine : Transcriber := fun _ => Except.ok ⟨"hi".data, [⟨0, 2, "hi".data⟩], 2⟩

/-- A connection state whose watermark is already at 3 s. -/
def staleState : AudioState := { AudioState.init with last_end_time := 3 }

/-- The watermark of a round's outcome, when the round completed. -/
def roundLastEnd : Except Unit (AudioState × Option (List Char)) → Option ℚ
  | Except.ok (s, _) => some s.last_end_time
  | Except.error _ => none

/-- The state `handle_frame` reaches from the fresh state on
`bigVoiceFrame` with `stubEngine`. -/
def trimmedState : AudioState :=
  { buffer := List.replicate KEEP_BYTES 0,
    smoothed_energy := smoothedOf AudioState.init bigVoiceFrame,
    silence_counter := 0, last_end_time := 0, last_full_text := [],
    is_speaking := true, last_process_time := 0, speech_end_time := 0 }

/-- The state `handle_frame` reaches from `staleState` on `bigVoiceFrame`
with `backEngine`: the watermark has been overwritten with the engine's
reported end time 2, below the previous 3. -/
def overwrittenState : AudioState :=
  { buffer := List.replicate KEEP_BYTES 0,
    smoothed_energy := smoothedOf staleState bigVoiceFrame,
    silence_counter := 0, last_end_time := 2, last_full_text := "hi".data,
    is_speaking := true, last_process_time := 0, speech_end_time := 0 }

/-- A connection state that has already seen two consecutive silent
frame-batches. -/
def quietState : AudioState := { AudioState.init with silence_counter := 2 }

/-- A silent frame (zero energy, no payload needed). -/
def quietFrame : Frame := ⟨[], 5, 0⟩

/-- An empty current chunk for the aggregation-buffer examples. -/
def demoChunk : ContextChunk := ⟨0, 10, [], [], []⟩

/-- A fresh aggregation buffer holding `demoChunk`. -/
def demoBuf : IngestionBuffer := ⟨10, some demoChunk, [], []⟩

/-- An aggregation buffer with an empty current chunk and one past
storage write. -/
def loggedBuf : IngestionBuffer :=
  ⟨10, some demoChunk, [], [⟨"x".data, mkMetadata demoChunk, 0⟩]⟩

/-! ## Helper lemmas -/

theorem takeTail_length {α : Type} (l : List α) (n : Nat) (h : n ≤ l.length) :
    (takeTail l n).length = n := by
  simp [takeTail]; omega

theorem reconcile_foldl_char (prev : ℚ) (segs : List Segment)
    (acc : List (List Char) × ℚ) :
    segs.foldl (reconcileStep prev) acc =
      (acc.1 ++ (segs.filter (keptSeg prev)).map (fun s => pyStrip s.text),
       (segs.filter (keptSeg prev)).foldl (fun a s => max a s.stop) acc.2) := by
  induction segs generalizing acc with
  | nil => simp
  | cons s t ih =>
    rw [List.foldl_cons, List.filter_cons]
    by_cases h : s.start ≥ prev - 3/10
    · have hk : keptSeg prev s = true := by
        simp only [keptSeg, decide_eq_true_eq]; exact h
      have hstep : reconcileStep prev acc s =
          (acc.1 ++ [pyStrip s.text], max acc.2 s.stop) := by
        unfold reconcileStep; rw [if_pos h]
      rw [if_pos hk, hstep, ih]
      simp
    · have hk : ¬ keptSeg prev s = true := by
        simp only [keptSeg, decide_eq_true_eq]; exact h
      have hstep : reconcileStep prev acc s = acc := by
        unfold reconcileStep; rw [if_neg h]
      rw [if_neg hk, hstep, ih]

theorem le_foldl_max (l : List Segment) (b : ℚ) :
    b ≤ l.foldl (fun a s => max a s.stop) b := by
  induction l generalizing b with
  | nil => simp
  | cons s t ih => exact le_trans (le_max_left _ _) (ih _)

theorem extract_watermark_ge (prev : ℚ) (segs : List Segment) :
    prev ≤ (extract_new_text_with_timestamps prev segs).2 := by
  unfold extract_new_text_with_timestamps
  rw [reconcile_foldl_char]
  exact le_foldl_max _ _

theorem processRound_engine_error (tr : Transcriber) (st : AudioState)
    (h : tr (takeTail st.buffer MAX_BUFFER_SIZE) = Except.error ()) :
    processRound tr st = Except.error () := by
  unfold processRound; rw [h]

theorem processRound_timestamps (tr : Transcriber) (st : AudioState) (r : TransResult)
    (h : tr (takeTail st.buffer MAX_BUFFER_SIZE) = Except.ok r)
    (hseg : r.segments ≠ []) :
    processRound tr st = Except.ok
      ({ st with
         last_end_time := r.end_time, last_full_text := r.full_text,
         buffer := if KEEP_BYTES > 0 then takeTail st.buffer KEEP_BYTES else [] },
       emitted (extract_new_text_with_timestamps st.last_end_time r.segments).1) := by
  unfold processRound; rw [h]; simp [hseg]

theorem processRound_fallback (tr : Transcriber) (st : AudioState) (r : TransResult)
    (h : tr (takeTail st.buffer MAX_BUFFER_SIZE) = Except.ok r)
    (hseg : r.segments = []) :
    processRound tr st = Except.ok
      ({ st with
         last_full_text := r.full_text,
         buffer := if KEEP_BYTES > 0 then takeTail st.buffer KEEP_BYTES else [] },
       emitted (extract_new_text_fallback st.last_full_text r.full_text)) := by
  unfold processRound; rw [h]; simp [hseg]

theorem handle_frame_silence (tr : Transcriber) (st : AudioState) (f : Frame)
    (h : (ingest st f).smoothed_energy < SILENCE_THRESHOLD) :
    handle_frame tr st f = Except.ok (silenceStep (ingest st f) f.time, none) := by
  unfold handle_frame; rw [if_pos h]

theorem handle_frame_speech_idle (tr : Transcriber) (st : AudioState) (f : Frame)
    (h1 : ¬ (ingest st f).smoothed_energy < SILENCE_THRESHOLD)
    (h2 : ¬ shouldProcess (speechMark (ingest st f)) f.time) :
    handle_frame tr st f = Except.ok (speechMark (ingest st f), none) := by
  unfold handle_frame; rw [if_neg h1, if_neg h2]

theorem handle_frame_speech_proc (tr : Transcriber) (st : AudioState) (f : Frame)
    (h1 : ¬ (ingest st f).smoothed_energy < SILENCE_THRESHOLD)
    (h2 : shouldProcess (speechMark (ingest st f)) f.time) :
    handle_frame tr st f = processRound tr (speechMark (ingest st f)) := by
  unfold handle_frame; rw [if_neg h1, if_pos h2]

theorem silenceStep_reset (st : AudioState) (now : ℚ)
    (h : st.silence_counter + 1 > SILENCE_CHUNKS_BEFORE_RESET * 2) :
    silenceStep st now =
      { buffer := [], smoothed_energy := st.smoothed_energy, silence_counter := 0,
        last_end_time := 0, last_full_text := [], is_speaking := false,
        last_process_time := st.last_process_time, speech_end_time := 0 } := by
  unfold silenceStep
  by_cases hs : st.is_speaking
  · simp [hs, h]
  · simp [hs, h]

theorem run_frames_crash (tr : Transcriber) (st : AudioState) (f : Frame)
    (fs : List Frame) (h : handle_frame tr st f = Except.error ()) :
    run_frames tr st (f :: fs) = ⟨[], 0, true⟩ := by
  simp [run_frames, h]

theorem handle_frame_error_source (tr : Transcriber) (st : AudioState) (f : Frame)
    (h : handle_frame tr st f = Except.error ()) :
    tr (takeTail (speechMark (ingest st f)).buffer MAX_BUFFER_SIZE) = Except.error () := by
  by_cases h1 : (ingest st f).smoothed_energy < SILENCE_THRESHOLD
  · rw [handle_frame_silence tr st f h1] at h; exact absurd h (by simp)
  · by_cases h2 : shouldProcess (speechMark (ingest st f)) f.time
    · rw [handle_frame_speech_proc tr st f h1 h2] at h
      cases htr : tr (takeTail (speechMark (ingest st f)).buffer MAX_BUFFER_SIZE) with
      | error e => cases e; rfl
      | ok r =>
        by_cases hseg : r.segments = []
        · rw [processRound_fallback tr _ r htr hseg] at h; exact absurd h (by simp)
        · rw [processRound_timestamps tr _ r htr hseg] at h; exact absurd h (by simp)
    · rw [handle_frame_speech_idle tr st f h1 h2] at h; exact absurd h (by simp)

theorem bigVoiceFrame_loud (st : AudioState) (h : st.smoothed_energy = 0) :
    ¬ (ingest st bigVoiceFrame).smoothed_energy < SILENCE_THRESHOLD := by
  show ¬ smoothedOf st bigVoiceFrame < SILENCE_THRESHOLD
  rw [smoothedOf]
  simp [h, bigVoiceFrame, ENERGY_SMOOTHING_FACTOR, SILENCE_THRESHOLD]
  norm_num

theorem bigVoiceFrame_fills (st : AudioState) (h : st.buffer = []) :
    shouldProcess (speechMark (ingest st bigVoiceFrame)) bigVoiceFrame.time :=
  Or.inl (by simp [speechMark, ingest, h, bigVoiceFrame])

theorem bigVoiceFrame_trimmed (st : AudioState) (h : st.buffer = []) :
    (if KEEP_BYTES > 0 then
      takeTail (speechMark (ingest st bigVoiceFrame)).buffer KEEP_BYTES else []) =
      List.replicate KEEP_BYTES (0 : Nat) := by
  rw [if_pos (by decide : KEEP_BYTES > 0)]
  show takeTail (st.buffer ++ List.replicate MAX_BUFFER_SIZE 0) KEEP_BYTES = _
  rw [h, List.nil_append, takeTail, List.length_replicate, List.drop_replicate,
    show MAX_BUFFER_SIZE - (MAX_BUFFER_SIZE - KEEP_BYTES) = KEEP_BYTES from by decide]

theorem crash_concrete :
    handle_frame failingEngine AudioState.init bigVoiceFrame = Except.error () := by
  rw [handle_frame_speech_proc failingEngine AudioState.init bigVoiceFrame
    (bigVoiceFrame_loud AudioState.init rfl) (bigVoiceFrame_fills AudioState.init rfl)]
  exact processRound_engine_error failingEngine _ rfl

/-! ## Claim theorems -/

/-- C1, amended: a transcription failure is not contained at the
transcription boundary.  When the engine call of a round raises, the
round contributes no delta text and the receive loop of
`handle_audio_stream` terminates at that frame — no subsequent frame is
received or processed — and the only way a round can fail is through the
transcription call itself. -/
theorem C1_transcription_failure_ends_connection :
    (∀ (tr : Transcriber) (st : AudioState) (f : Frame) (fs : List Frame),
      handle_frame tr st f = Except.error () →
      run_frames tr st (f :: fs) = ⟨[], 0, true⟩) ∧
    (∀ (tr : Transcriber) (st : AudioState) (f : Frame),
      handle_frame tr st f = Except.error () →
      tr (takeTail (speechMark (ingest st f)).buffer MAX_BUFFER_SIZE) =
        Except.error ()) :=
  ⟨run_frames_crash, handle_frame_error_source⟩

/-- C1 counterexample: with an engine that raises on every call and two
consecutive full-buffer voice frames, the receive loop emits nothing and
terminates during the first round; the claimed outcome — both frames
processed and the connection continuing — does not occur. -/
theorem C1_claim_counterexample :
    run_frames failingEngine AudioState.init [bigVoiceFrame, bigVoiceFrame] =
      ⟨[], 0, true⟩ ∧
    (⟨[], 0, true⟩ : RunResult) ≠ ⟨[], 2, false⟩ :=
  ⟨run_frames_crash _ _ _ _ crash_concrete, by decide⟩

/-- C1 witness: the amended theorem applied to the failing engine on a
fresh connection fed a full-buffer voice frame. -/
theorem C1_witness :
    handle_frame failingEngine AudioState.init bigVoiceFrame = Except.error () ∧
    run_frames failingEngine AudioState.init [bigVoiceFrame, bigVoiceFrame] =
      ⟨[], 0, true⟩ ∧
    failingEngine (takeTail (speechMark (ingest AudioState.init bigVoiceFrame)).buffer
      MAX_BUFFER_SIZE) = Except.error () :=
  ⟨crash_concrete,
    C1_transcription_failure_ends_connection.1 _ _ _ _ crash_concrete,
    C1_transcription_failure_ends_connection.2 _ _ _ crash_concrete⟩

/-- C2: on the spec's own example — previous text
"the five dogs ran fast", new text "five dogs ran fast and jumped" — a
4-word suffix/prefix overlap exists, yet `extract_new_text_fallback`
emits "ran fast and jumped", not the specified "and jumped": the code
drops `len(new_words) - i` words instead of the `i` overlap words
(contrast the correct `original_new_words[overlap_size:]` of the 5→3
branch), re-emitting part of the overlap it just found. -/
theorem C2_overlap_indexing_bug :
    takeTail (pySplit (normalize_text_for_comparison "the five dogs ran fast".data)) 4 =
      (pySplit (normalize_text_for_comparison "five dogs ran fast and jumped".data)).take 4 ∧
    extract_new_text_fallback "the five dogs ran fast".data
      "five dogs ran fast and jumped".data = "ran fast and jumped".data ∧
    extract_new_text_fallback "the five dogs ran fast".data
      "five dogs ran fast and jumped".data ≠ "and jumped".data := by
  decide

/-- C3, amended: the watermark returned by the timestamp reconciler never
lies below the previous watermark; but `handle_audio_stream` discards
that returned value and overwrites `last_end_time` with the engine's
reported `end_time` for the pass, which may be smaller, so the stored
watermark is not monotone across rounds. -/
theorem C3_watermark_single_round :
    (∀ (prev : ℚ) (segs : List Segment),
      prev ≤ (extract_new_text_with_timestamps prev segs).2) ∧
    (∀ (tr : Transcriber) (st : AudioState) (f : Frame) (r : TransResult)
      (st' : AudioState) (out : Option (List Char)),
      ¬ (ingest st f).smoothed_energy < SILENCE_THRESHOLD →
      shouldProcess (speechMark (ingest st f)) f.time →
      tr (takeTail (speechMark (ingest st f)).buffer MAX_BUFFER_SIZE) = Except.ok r →
      r.segments ≠ [] →
      handle_frame tr st f = Except.ok (st', out) →
      st'.last_end_time = r.end_time) := by
  refine ⟨extract_watermark_ge, ?_⟩
  intro tr st f r st' out h1 h2 htr hseg h3
  rw [handle_frame_speech_proc tr st f h1 h2,
    processRound_timestamps tr _ r htr hseg] at h3
  rw [Except.ok.injEq, Prod.mk.injEq] at h3
  rw [← h3.1]

/-- C3 counterexample: a round whose engine pass reports segments ending
at 2 s while the stored watermark is 3 s ends with `last_end_time = 2`:
the watermark moved backward although no long-silence reset (which would
set it to 0) occurred. -/
theorem C3_claim_counterexample :
    roundLastEnd (handle_frame backEngine staleState bigVoiceFrame) = some 2 ∧
    staleState.last_end_time = 3 ∧ ¬ ((3 : ℚ) ≤ 2) ∧ (2 : ℚ) ≠ 0 := by
  rw [handle_frame_speech_proc backEngine staleState bigVoiceFrame
      (bigVoiceFrame_loud staleState rfl) (bigVoiceFrame_fills staleState rfl),
    processRound_timestamps backEngine _ ⟨"hi".data, [⟨0, 2, "hi".data⟩], 2⟩ rfl (by simp)]
  exact ⟨rfl, rfl, by norm_num, by norm_num⟩

/-- C3 witness: the amended theorem applied to the stale-watermark round. -/
theorem C3_witness :
    (¬ (ingest staleState bigVoiceFrame).smoothed_energy < SILENCE_THRESHOLD) ∧
    shouldProcess (speechMark (ingest staleState bigVoiceFrame)) bigVoiceFrame.time ∧
    handle_frame backEngine staleState bigVoiceFrame =
      Except.ok (overwrittenState, none) ∧
    overwrittenState.last_end_time =
      (⟨"hi".data, [⟨0, 2, "hi".data⟩], 2⟩ : TransResult).end_time ∧
    (3 : ℚ) ≤ (extract_new_text_with_timestamps 3 [⟨0, 2, "hi".data⟩]).2 := by
  have h1 := bigVoiceFrame_loud staleState rfl
  have h2 := bigVoiceFrame_fills staleState rfl
  have hdelta : (extract_new_text_with_timestamps
      (speechMark (ingest staleState bigVoiceFrame)).last_end_time
      [⟨0, 2, "hi".data⟩]).1 = [] := by
    show (extract_new_text_with_timestamps 3 _).1 = []
    unfold extract_new_text_with_timestamps
    rw [List.foldl_cons, List.foldl_nil,
      show reconcileStep 3 ([], 3) ⟨0, 2, "hi".data⟩ = ([], 3) from by
        unfold reconcileStep; rw [if_neg (by norm_num)]]
    rfl
  have h3 : handle_frame backEngine staleState bigVoiceFrame =
      Except.ok (overwrittenState, none) := by
    rw [handle_frame_speech_proc backEngine staleState bigVoiceFrame h1 h2,
      processRound_timestamps backEngine _ ⟨"hi".data, [⟨0, 2, "hi".data⟩], 2⟩ rfl (by simp),
      bigVoiceFrame_trimmed staleState rfl, hdelta]
    rfl
  exact ⟨h1, h2, h3,
    C3_watermark_single_round.2 backEngine staleState bigVoiceFrame
      ⟨"hi".data, [⟨0, 2, "hi".data⟩], 2⟩ overwrittenState none h1 h2 rfl (by simp) h3,
    C3_watermark_single_round.1 3 [⟨0, 2, "hi".data⟩]⟩

/-- C4: the timestamp reconciler keeps exactly the segments with
`start ≥ prevEndTime − 0.3`, emits their stripped texts joined in order,
and returns as watermark the running maximum of kept end times started
at `prevEndTime`; on the spec's example it emits "world today" with
watermark 3, and when every segment starts before `prevEndTime − 0.3`
the delta is empty. -/
theorem C4_timestamp_reconciler :
    (∀ (prev : ℚ) (segs : List Segment),
      extract_new_text_with_timestamps prev segs =
        (joinSpace ((segs.filter (keptSeg prev)).map fun s => pyStrip s.text),
         (segs.filter (keptSeg prev)).foldl (fun a s => max a s.stop) prev)) ∧
    extract_new_text_with_timestamps 2
      [⟨9/5, 5/2, "world".data⟩, ⟨5/2, 3, "today".data⟩] =
      ("world today".data, 3) ∧
    (∀ (prev : ℚ) (segs : List Segment),
      (∀ s ∈ segs, s.start < prev - 3/10) →
      (extract_new_text_with_timestamps prev segs).1 = []) := by
  refine ⟨?_, ?_, ?_⟩
  · intro prev segs
    unfold extract_new_text_with_timestamps
    rw [reconcile_foldl_char]
    simp
  · have h1 : ((9 : ℚ)/5 ≥ 2 - 3/10) := by norm_num
    have h2 : ((5 : ℚ)/2 ≥ 2 - 3/10) := by norm_num
    unfold extract_new_text_with_timestamps
    rw [List.foldl_cons, List.foldl_cons, List.foldl_nil]
    have hs1 : reconcileStep 2 (([], 2) : List (List Char) × ℚ)
        ⟨9/5, 5/2, "world".data⟩ = ([pyStrip "world".data], max 2 (5/2)) := by
      unfold reconcileStep; rw [if_pos h1]; rfl
    have hs2 : reconcileStep 2
        (([pyStrip "world".data], max 2 (5/2)) : List (List Char) × ℚ)
        ⟨5/2, 3, "today".data⟩ =
        ([pyStrip "world".data, pyStrip "today".data], max (max 2 (5/2)) 3) := by
      unfold reconcileStep; rw [if_pos h2]; rfl
    rw [hs1, hs2,
      show max (max (2 : ℚ) (5/2)) 3 = 3 by
        rw [max_eq_right (by norm_num : (2 : ℚ) ≤ 5/2),
          max_eq_right (by norm_num : (5 : ℚ)/2 ≤ 3)]]
    rfl
  · intro prev segs h
    have hfil : segs.filter (keptSeg prev) = [] := by
      rw [List.filter_eq_nil_iff]
      intro a ha
      simp only [keptSeg, decide_eq_true_eq]
      exact not_le.mpr (h a ha)
    unfold extract_new_text_with_timestamps
    rw [reconcile_foldl_char, hfil]
    rfl

/-- C4 witness: the all-stale conjunct applied to one segment starting at
1 s against watermark 5 s. -/
theorem C4_witness :
    ((⟨1, 2, "x".data⟩ : Segment).start < 5 - 3/10) ∧
    (extract_new_text_with_timestamps 5 [⟨1, 2, "x".data⟩]).1 = [] := by
  have hs : ((⟨1, 2, "x".data⟩ : Segment).start < 5 - 3/10) := by norm_num
  exact ⟨hs, C4_timestamp_reconciler.2.2 5 [⟨1, 2, "x".data⟩]
    (by intro s hmem; rw [List.mem_singleton] at hmem; rw [hmem]; exact hs)⟩

/-- C5: the claimed flush behaviour is unreachable.  Appending one
transcript and one frame description to a buffer whose current chunk is
empty succeeds and both fragments land in the chunk, but the subsequent
`process_current_batch` (the `flush()`) calls `_start_new_chunk` while
already holding the non-reentrant lock and blocks forever: it stores no
document and installs no fresh chunk. -/
theorem C5_flush_deadlocks (b : IngestionBuffer) (c : ContextChunk)
    (t d : List Char) (n1 n2 n3 : ℚ)
    (hc : b.current_chunk = some c) (ht : c.transcripts = [])
    (hd : c.frame_descriptions = []) :
    b.add_transcript n1 t =
      some { b with current_chunk := some { c with transcripts := [t] } } ∧
    IngestionBuffer.add_frame_description
      { b with current_chunk := some { c with transcripts := [t] } } n2 d =
      some { b with
        current_chunk := some { c with transcripts := [t], frame_descriptions := [d] } } ∧
    IngestionBuffer.process_current_batch
      { b with
        current_chunk := some { c with transcripts := [t], frame_descriptions := [d] } } n3 =
      none := by
  refine ⟨?_, ?_, rfl⟩
  · unfold IngestionBuffer.add_transcript
    rw [hc]
    simp [hc, ht]
  · unfold IngestionBuffer.add_frame_description
    simp [hd]

/-- C5 witness: the theorem applied to a fresh demo buffer with
transcript "a" and frame description "b". -/
theorem C5_witness :
    demoBuf.current_chunk = some demoChunk ∧
    demoChunk.transcripts = [] ∧
    demoChunk.frame_descriptions = [] ∧
    demoBuf.add_transcript 1 "a".data =
      some { demoBuf with
        current_chunk := some { demoChunk with transcripts := ["a".data] } } ∧
    IngestionBuffer.add_frame_description
      { demoBuf with current_chunk := some { demoChunk with transcripts := ["a".data] } }
      2 "b".data =
      some { demoBuf with
        current_chunk := some { demoChunk with
          transcripts := ["a".data], frame_descriptions := ["b".data] } } ∧
    IngestionBuffer.process_current_batch
      { demoBuf with
        current_chunk := some { demoChunk with
          transcripts := ["a".data], frame_descriptions := ["b".data] } } 3 = none := by
  have h := C5_flush_deadlocks demoBuf demoChunk "a".data "b".data 1 2 3 rfl rfl rfl
  exact ⟨rfl, rfl, rfl, h.1, h.2.1, h.2.2⟩

/-- C6: a silent frame that pushes the silence counter beyond twice the
configured pause window hard-resets the connection state: the frame ends
with an empty buffer, watermark 0, empty last-full-text, and speech-end
timestamp 0. -/
theorem C6_long_silence_hard_reset (tr : Transcriber) (st : AudioState) (f : Frame)
    (h1 : (ingest st f).smoothed_energy < SILENCE_THRESHOLD)
    (h2 : st.silence_counter + 1 > SILENCE_CHUNKS_BEFORE_RESET * 2) :
    handle_frame tr st f = Except.ok
      ({ buffer := [], smoothed_energy := smoothedOf st f, silence_counter := 0,
         last_end_time := 0, last_full_text := [], is_speaking := false,
         last_process_time := st.last_process_time, speech_end_time := 0 }, none) := by
  rw [handle_frame_silence tr st f h1,
    silenceStep_reset (ingest st f) f.time (by simpa [ingest] using h2)]
  rfl

/-- C6 witness: the third consecutive silent frame-batch of a connection
resets its state. -/
theorem C6_witness :
    ((ingest quietState quietFrame).smoothed_energy < SILENCE_THRESHOLD) ∧
    (quietState.silence_counter + 1 > SILENCE_CHUNKS_BEFORE_RESET * 2) ∧
    handle_frame failingEngine quietState quietFrame = Except.ok
      ({ buffer := [], smoothed_energy := smoothedOf quietState quietFrame,
         silence_counter := 0, last_end_time := 0, last_full_text := [],
         is_speaking := false, last_process_time := quietState.last_process_time,
         speech_end_time := 0 }, none) := by
  have h1 : (ingest quietState quietFrame).smoothed_energy < SILENCE_THRESHOLD := by
    show smoothedOf quietState quietFrame < SILENCE_THRESHOLD
    norm_num [smoothedOf, quietState, quietFrame, AudioState.init,
      ENERGY_SMOOTHING_FACTOR, SILENCE_THRESHOLD]
  have h2 : quietState.silence_counter + 1 > SILENCE_CHUNKS_BEFORE_RESET * 2 := by decide
  exact ⟨h1, h2, C6_long_silence_hard_reset failingEngine quietState quietFrame h1 h2⟩

/-- C7: after any frame round whose processing trigger fires and whose
round completes, the buffer holds exactly the trailing
`int(MAX_BUFFER_SIZE * 0.38)` bytes of the appended buffer — exactly 38%
of the configured maximum — and in particular never exceeds the
configured maximum. -/
theorem C7_trigger_trims_buffer (tr : Transcriber) (st : AudioState) (f : Frame)
    (st' : AudioState) (out : Option (List Char))
    (h1 : ¬ (ingest st f).smoothed_energy < SILENCE_THRESHOLD)
    (h2 : shouldProcess (speechMark (ingest st f)) f.time)
    (h3 : handle_frame tr st f = Except.ok (st', out)) :
    st'.buffer = takeTail (st.buffer ++ f.data) KEEP_BYTES ∧
    st'.buffer.length = KEEP_BYTES ∧
    100 * st'.buffer.length = 38 * MAX_BUFFER_SIZE ∧
    st'.buffer.length ≤ MAX_BUFFER_SIZE := by
  rw [handle_frame_speech_proc tr st f h1 h2] at h3
  have hbuf : (speechMark (ingest st f)).buffer = st.buffer ++ f.data := rfl
  have hlen : KEEP_BYTES ≤ (st.buffer ++ f.data).length := by
    rcases h2 with h | ⟨h, _⟩
    · rw [hbuf] at h
      exact le_trans (by decide : KEEP_BYTES ≤ MAX_BUFFER_SIZE) h
    · rw [hbuf] at h
      exact le_trans (by decide : KEEP_BYTES ≤ MIN_BUFFER_SIZE) h
  cases htr : tr (takeTail (speechMark (ingest st f)).buffer MAX_BUFFER_SIZE) with
  | error e =>
    cases e
    rw [processRound_engine_error tr _ htr] at h3
    exact absurd h3 (by simp)
  | ok r =>
    have hbuf' : st'.buffer = takeTail (st.buffer ++ f.data) KEEP_BYTES := by
      by_cases hseg : r.segments = []
      · rw [processRound_fallback tr _ r htr hseg] at h3
        rw [Except.ok.injEq, Prod.mk.injEq] at h3
        rw [← h3.1]
        simp only [hbuf]
        rw [if_pos (by decide : KEEP_BYTES > 0)]
      · rw [processRound_timestamps tr _ r htr hseg] at h3
        rw [Except.ok.injEq, Prod.mk.injEq] at h3
        rw [← h3.1]
        simp only [hbuf]
        rw [if_pos (by decide : KEEP_BYTES > 0)]
    have hl : st'.buffer.length = KEEP_BYTES := by
      rw [hbuf']; exact takeTail_length _ _ hlen
    exact ⟨hbuf', hl, by rw [hl]; decide, by rw [hl]; decide⟩

/-- C7 witness: a full-buffer voice frame on a fresh connection with an
empty-result engine leaves exactly `KEEP_BYTES = 48640` bytes. -/
theorem C7_witness :
    (¬ (ingest AudioState.init bigVoiceFrame).smoothed_energy < SILENCE_THRESHOLD) ∧
    shouldProcess (speechMark (ingest AudioState.init bigVoiceFrame)) bigVoiceFrame.time ∧
    handle_frame stubEngine AudioState.init bigVoiceFrame =
      Except.ok (trimmedState, none) ∧
    trimmedState.buffer.length = KEEP_BYTES ∧
    100 * trimmedState.buffer.length = 38 * MAX_BUFFER_SIZE ∧
    trimmedState.buffer.length ≤ MAX_BUFFER_SIZE := by
  have h1 := bigVoiceFrame_loud AudioState.init rfl
  have h2 := bigVoiceFrame_fills AudioState.init rfl
  have h3 : handle_frame stubEngine AudioState.init bigVoiceFrame =
      Except.ok (trimmedState, none) := by
    rw [handle_frame_speech_proc stubEngine AudioState.init bigVoiceFrame h1 h2,
      processRound_fallback stubEngine _ ⟨[], [], 0⟩ rfl rfl,
      bigVoiceFrame_trimmed AudioState.init rfl]
    rfl
  have h := C7_trigger_trims_buffer stubEngine AudioState.init bigVoiceFrame
    trimmedState none h1 h2 h3
  exact ⟨h1, h2, h3, h.2.1, h.2.2.1, h.2.2.2⟩

/-- C8, amended: for every pair of texts whose PREVIOUS text is nonempty,
if the new normalized word count is at most 80% of the previous
normalized word count and the new normalized text is a substring of the
previous normalized text, the fallback reconciler emits the empty delta.
The nonemptiness restriction is forced: an empty previous text takes the
no-deduplication early return. -/
theorem C8_containment_short_circuit (prev_text new_text : List Char)
    (hprev : prev_text ≠ [])
    (hlen : 5 * (pySplit (normalize_text_for_comparison new_text)).length ≤
      4 * (pySplit (normalize_text_for_comparison prev_text)).length)
    (hsub : strContains (joinSpace (pySplit (normalize_text_for_comparison prev_text)))
      (joinSpace (pySplit (normalize_text_for_comparison new_text))) = true) :
    extract_new_text_fallback prev_text new_text = [] := by
  by_cases hnew : new_text = []
  · subst hnew; unfold extract_new_text_fallback; rw [if_pos (Or.inr rfl)]
  · unfold extract_new_text_fallback
    rw [if_neg (by simp [hprev, hnew])]
    simp only
    rw [if_pos ⟨hlen, hsub⟩]

/-- C8 counterexample: with previous text "" and new text ".", both
normalize to zero words, so the claim's conditions hold (0 ≤ 80% of 0,
"" is a substring of ""), yet the emitted delta is "." — the empty-text
early return fires first. -/
theorem C8_claim_counterexample :
    5 * (pySplit (normalize_text_for_comparison ".".data)).length ≤
      4 * (pySplit (normalize_text_for_comparison ([] : List Char))).length ∧
    strContains (joinSpace (pySplit (normalize_text_for_comparison ([] : List Char))))
      (joinSpace (pySplit (normalize_text_for_comparison ".".data))) = true ∧
    extract_new_text_fallback [] ".".data = ".".data ∧
    ".".data ≠ ([] : List Char) := by
  decide

/-- C8 witness: the spec's example — previous "one two three four five",
new "two three" — yields an empty delta. -/
theorem C8_witness :
    ("one two three four five".data ≠ ([] : List Char)) ∧
    5 * (pySplit (normalize_text_for_comparison "two three".data)).length ≤
      4 * (pySplit (normalize_text_for_comparison "one two three four five".data)).length ∧
    strContains
      (joinSpace (pySplit (normalize_text_for_comparison "one two three four five".data)))
      (joinSpace (pySplit (normalize_text_for_comparison "two three".data))) = true ∧
    extract_new_text_fallback "one two three four five".data "two three".data = [] :=
  ⟨by decide, by decide, by decide,
    C8_containment_short_circuit "one two three four five".data "two three".data
      (by decide) (by decide) (by decide)⟩

/-- C9: the claimed no-op flush never happens.  Flushing a buffer whose
current chunk has no transcripts and no frame descriptions deadlocks at
the nested acquisition of the non-reentrant lock — reached before the
empty-batch check — so the call never returns: it writes no document and
consumes no chunk id only because it never completes, and no fresh
chunk becomes available. -/
theorem C9_empty_flush_deadlocks (b : IngestionBuffer) (c : ContextChunk) (now : ℚ)
    (hc : b.current_chunk = some c) (ht : c.transcripts = [])
    (hd : c.frame_descriptions = []) :
    b.process_current_batch now = none := by
  unfold IngestionBuffer.process_current_batch
  rw [hc]
  rfl

/-- C9 witness: the theorem applied to a buffer with an empty chunk and
one past write. -/
theorem C9_witness :
    loggedBuf.current_chunk = some demoChunk ∧
    demoChunk.transcripts = [] ∧
    demoChunk.frame_descriptions = [] ∧
    loggedBuf.process_current_batch 7 = none :=
  ⟨rfl, rfl, rfl, C9_empty_flush_deadlocks loggedBuf demoChunk 7 rfl rfl rfl⟩

/-- C10: when the previous full text is empty (first pass, or first pass
after a long-silence reset) or the new text is empty, the fallback
reconciler returns the new text unchanged — no deduplication. -/
theorem C10_empty_text_passthrough (prev_text new_text : List Char)
    (h : prev_text = [] ∨ new_text = []) :
    extract_new_text_fallback prev_text new_text = new_text := by
  unfold extract_new_text_fallback
  rw [if_pos h]

/-- C10 witness: an empty previous text passes "hello" through. -/
theorem C10_witness :
    (([] : List Char) = [] ∨ "hello".data = []) ∧
    extract_new_text_fallback [] "hello".data = "hello".data :=
  ⟨Or.inl rfl, C10_empty_text_passthrough [] "hello".data (Or.inl rfl)⟩

end StreamCore
